import Mathlib

/-!
Shallow embedding of the crypto-bot command pipeline from `src/main.py`.

Numbers that Python handles as floats are modelled as exact rationals (ℚ).
Python exceptions (`KeyError`, `ZeroDivisionError`) are modelled with
`Except String`; a Python function that catches all exceptions and falls
back to a fixed reply is modelled by pattern matching on that `Except`.
Dictionaries are modelled as association lists in insertion order
(Python dicts preserve insertion order).
-/

namespace CryptoBot

instance {ε α : Type} [DecidableEq ε] [DecidableEq α] : DecidableEq (Except ε α) := fun x y =>
  match x, y with
  | .error a, .error b =>
    if h : a = b then .isTrue (by rw [h]) else .isFalse (by simp [h])
  | .error _, .ok _ => .isFalse (by simp)
  | .ok _, .error _ => .isFalse (by simp)
  | .ok a, .ok b =>
    if h : a = b then .isTrue (by rw [h]) else .isFalse (by simp [h])

/-- One decimal digit as a character. -/
def digitChar (n : Nat) : Char :=
  match n with
  | 0 => '0' | 1 => '1' | 2 => '2' | 3 => '3' | 4 => '4'
  | 5 => '5' | 6 => '6' | 7 => '7' | 8 => '8' | _ => '9'

/-- Fuel-driven base-10 digit expansion (most significant digit first). -/
def natCharsAux (fuel n : Nat) : List Char :=
  match fuel with
  | 0 => []
  | fuel + 1 =>
    if n < 10 then [digitChar n]
    else natCharsAux fuel (n / 10) ++ [digitChar (n % 10)]

/-- Decimal digits of a natural number, as Python prints a nonnegative int. -/
def natChars (n : Nat) : List Char := natCharsAux (n + 1) n

/-- Banker's rounding to the nearest integer, as Python's builtin `round`:
ties go to the even integer. -/
def roundHalfEven (q : ℚ) : ℤ :=
  let f : ℤ := ⌊q⌋
  let r : ℚ := q - (f : ℚ)
  if r < 1 / 2 then f
  else if 1 / 2 < r then f + 1
  else if f % 2 = 0 then f else f + 1

/-- Python `round(q, 2)`: round to two decimal places (banker's rounding). -/
def round2 (q : ℚ) : ℚ := (roundHalfEven (q * 100) : ℚ) / 100

/-- Rendering of `f"{p:+.2f}"` where the two-decimal value `p` is carried
as an integer count `n` of hundredths: explicit sign, then the integer
part, then exactly two fractional digits. -/
def fmtSigned2 (n : ℤ) : String :=
  (if n < 0 then "-" else "+")
    ++ String.mk (natChars (n.natAbs / 100))
    ++ "."
    ++ (if n.natAbs % 100 < 10 then "0" else "")
    ++ String.mk (natChars (n.natAbs % 100))

/-- Rendering of Python `str()` on a two-decimal float value, e.g.
`str(12000.0) = "12000.0"`, `str(59123.45) = "59123.45"`,
`str(0.5) = "0.5"`.  The value is first expressed in hundredths. -/
def pyFloatChars (q : ℚ) : List Char :=
  let h : ℤ := roundHalfEven (q * 100)
  let f : Nat := h.natAbs % 100
  (if h < 0 then ['-'] else [])
    ++ natChars (h.natAbs / 100)
    ++ '.' ::
      (if f % 10 = 0 then natChars (f / 10)
       else if f < 10 then '0' :: natChars f
       else natChars f)

/-- Python `str()` of a price value as a `String`. -/
def pyFloatStr (q : ℚ) : String := String.mk (pyFloatChars q)

/-- One portfolio record, the value of one key of `portfolio.json`:
each field of the JSON object is optional (a missing key raises
`KeyError` when accessed). -/
structure Holding where
  amount : Option ℚ
  buy_usd : Option ℚ
  staking : Option ℚ
  name : Option String
  buy_floor_sol : Option ℚ
  deriving DecidableEq, Repr

/-- A quote map: symbol to current USD price, in insertion order. -/
abbrev Quotes := List (String × ℚ)

/-- The loaded `portfolio.json`: symbol to holding record, in insertion
order. -/
abbrev PortfolioData := List (String × Holding)

/-- The trend marker of `calculate_profit`, line 113 of `main.py`:
`"📈" if percent > 0 else "📉"`, with `percent` carried in hundredths. -/
def trendArrow (percent : ℤ) : String :=
  if 0 < percent then "📈" else "📉"

/-- One formatted profit line, line 114 of `main.py`:
`f"{token}: {percent:+.2f}% {arrow}"`, with `percent` in hundredths. -/
def profitLine (token : String) (percent : ℤ) : String :=
  token ++ ": " ++ fmtSigned2 percent ++ "% " ++ trendArrow percent

/-- `calculate_profit(prices, portfolio)`, lines 105–115 of `main.py`.
Entries whose token is not a key of `prices` are skipped.  For the rest,
`info["buy_usd"]` raises `KeyError` when the field is missing, and the
division raises `ZeroDivisionError` when `buy_usd` is zero; either
exception aborts the whole loop (modelled as `.error`).  Otherwise
`percent = round(((current - buy) / buy) * 100, 2)` is computed, carried
as an integer number of hundredths, and the formatted line is appended. -/
def calculate_profit (prices : Quotes) (pf : PortfolioData) :
    Except String (List String) :=
  match pf with
  | [] => .ok []
  | (token, info) :: rest =>
    match prices.lookup token with
    | none => calculate_profit prices rest
    | some current_price =>
      match info.buy_usd with
      | none => .error "KeyError: buy_usd"
      | some buy_price =>
        if buy_price = 0 then .error "ZeroDivisionError: division by zero"
        else
          let percent : ℤ :=
            roundHalfEven ((current_price - buy_price) / buy_price * 100 * 100)
          (calculate_profit prices rest).map
            (fun lines => profitLine token percent :: lines)

/-- The optional profit line contributed by a single portfolio entry:
`none` when the entry is skipped (no quote) or when the entry would make
`calculate_profit` raise (missing or zero `buy_usd`).  Used to state that
a successful run returns exactly the kept entries in portfolio order. -/
def entryLine (prices : Quotes) (e : String × Holding) : Option String :=
  match prices.lookup e.1, e.2.buy_usd with
  | some current_price, some buy_price =>
    if buy_price = 0 then none
    else some (profitLine e.1
      (roundHalfEven ((current_price - buy_price) / buy_price * 100 * 100)))
  | _, _ => none

/-- `get_prices()`, lines 76–103 of `main.py`.  The argument models the
provider interaction: `none` for a network error, a non-2xx status or an
unparsable body, `some data` for a decoded response giving the USD price
the body carries for each symbol key (the inner
`["quote"]["USD"]["price"]` path is collapsed into the value).  The
function builds the five-key result dict, rounding each price to two
decimals; a symbol missing from `data` raises `KeyError`, which the
surrounding `except` turns into `None`.  So the result is `none` or a
full five-symbol map, never partial. -/
def get_prices (resp : Option (List (String × ℚ))) : Option Quotes :=
  match resp with
  | none => none
  | some data =>
    match data.lookup "BTC", data.lookup "ETH", data.lookup "SOL",
        data.lookup "ARB", data.lookup "TON" with
    | some b, some e, some s, some a, some t =>
      some [("BTC", round2 b), ("ETH", round2 e), ("SOL", round2 s),
            ("ARB", round2 a), ("TON", round2 t)]
    | _, _, _, _, _ => none

/-- Rendering of Python `str()` on a number read from JSON: integral
values print without a decimal point, others as a decimal. -/
def pyNumStr (q : ℚ) : String :=
  if q.den = 1 then
    (if q < 0 then "-" else "") ++ String.mk (natChars q.num.natAbs)
  else pyFloatStr q

/-- One line of the `/портфель` reply, lines 63–69 of `main.py`: three
mutually exclusive templates selected on the entry key; a field missing
from the record raises `KeyError`. -/
def holdingLine (key : String) (info : Holding) : Except String String :=
  if key = "USDT" then
    match info.amount, info.staking with
    | some amt, some st =>
      .ok ("USDT (Bybit): $" ++ pyNumStr amt ++ " — стейкинг " ++ pyNumStr st ++ "%\n")
    | _, _ => .error "KeyError"
  else if key = "NFT" then
    match info.name, info.buy_floor_sol with
    | some nm, some fl =>
      .ok ("NFT: 🎴 " ++ nm ++ " (вход: " ++ pyNumStr fl ++ " SOL)\n")
    | _, _ => .error "KeyError"
  else
    match info.amount, info.buy_usd with
    | some amt, some b =>
      .ok (key ++ ": " ++ pyNumStr amt ++ " — куплено на $" ++ pyNumStr b ++ "\n")
    | _, _ => .error "KeyError"

/-- The `portfolio` handler, lines 56–73 of `main.py`.  The argument
models the outcome of `open("portfolio.json")` + `json.load`: `.error`
when the record is missing, unreadable or unparsable.  Any exception
inside the `try` — the load itself or a `KeyError` while formatting —
yields the fixed failure line. -/
def portfolio_handler (loaded : Except String PortfolioData) : String :=
  match loaded with
  | .error _ => "Ошибка при чтении портфеля."
  | .ok data =>
    match data.mapM (fun e => holdingLine e.1 e.2) with
    | .error _ => "Ошибка при чтении портфеля."
    | .ok lines => "📊 Портфель:\n" ++ String.join lines

/-- The success reply of the `market` handler, lines 123–130 of
`main.py`, given the five prices looked up from the quote dict. -/
def marketReply (b e s a t : ℚ) : String :=
  "📊 Актуальные курсы:\n" ++
  "BTC: $" ++ pyFloatStr b ++ "\n" ++
  "ETH: $" ++ pyFloatStr e ++ "\n" ++
  "SOL: $" ++ pyFloatStr s ++ "\n" ++
  "ARB: $" ++ pyFloatStr a ++ "\n" ++
  "TON: $" ++ pyFloatStr t

/-- The `market` handler, lines 119–134 of `main.py`.  `if prices:` is
falsy for `None` and for an empty dict; the handler has no `try`, so a
`KeyError` on a malformed quote dict would propagate (modelled as
`.error`; unreachable for `get_prices` output). -/
def market_handler (resp : Option (List (String × ℚ))) : Except String String :=
  match get_prices resp with
  | none => .ok "❌ Не удалось получить цены с CoinGecko."
  | some prices =>
    if prices.isEmpty then .ok "❌ Не удалось получить цены с CoinGecko."
    else
      match prices.lookup "BTC", prices.lookup "ETH", prices.lookup "SOL",
          prices.lookup "ARB", prices.lookup "TON" with
      | some b, some e, some s, some a, some t => .ok (marketReply b e s a t)
      | _, _, _, _, _ => .error "KeyError"

/-- The `profit` handler, lines 136–153 of `main.py`.  The first argument
models the `portfolio.json` load, the second the quote-provider
interaction as in `get_prices`.  Everything runs inside one `try`: a
load failure or an exception out of `calculate_profit` yields the fixed
`"⚠️ …"` line; a falsy `get_prices` result yields the fixed `"❌ …"`
line; otherwise the reply is the header plus the joined profit lines. -/
def profit_handler (loaded : Except String PortfolioData)
    (resp : Option (List (String × ℚ))) : String :=
  match loaded with
  | .error _ => "⚠️ Ошибка при расчёте доходности."
  | .ok data =>
    match get_prices resp with
    | none => "❌ Не удалось получить цены."
    | some prices =>
      if prices.isEmpty then "❌ Не удалось получить цены."
      else
        match calculate_profit prices data with
        | .error _ => "⚠️ Ошибка при расчёте доходности."
        | .ok lines => "💰 Доходность портфеля:\n\n" ++ String.intercalate "\n" lines

/-- The closed set of commands the router distinguishes. -/
inductive Command where
  | ShowPortfolio
  | ShowMarket
  | ShowProfit
  | ShowNftPulse
  | Unrecognized
  deriving DecidableEq, Repr

/-- Python `str.lower` restricted to the alphabets the router's tokens
use: ASCII letters and the Cyrillic letters А–Я and Ё. -/
def pyLowerChar (c : Char) : Char :=
  if 'A' ≤ c ∧ c ≤ 'Z' then Char.ofNat (c.toNat + 32)
  else if 'А' ≤ c ∧ c ≤ 'Я' then Char.ofNat (c.toNat + 32)
  else if c = 'Ё' then 'ё'
  else c

/-- Python `text.lower()` applied to the whole inbound text, line 158 of
`main.py`: character-wise lowering, no trimming. -/
def pyLower (s : String) : String := String.mk (s.data.map pyLowerChar)

/-- The `echo` router, lines 157–170 of `main.py`, reduced to the
command it selects: the lowered text is compared for exact equality
against the four tokens in source order, with a default branch. -/
def classify (text : String) : Command :=
  let t := pyLower text
  if t = "/портфель" then .ShowPortfolio
  else if t = "/рынок" then .ShowMarket
  else if t = "/профит" then .ShowProfit
  else if t = "/нфт" then .ShowNftPulse
  else .Unrecognized

/-- Splits a character list at every occurrence of `c`; the separators
are dropped and empty segments are kept (like Python `str.split("\n")`). -/
def splitOnChar (c : Char) : List Char → List (List Char)
  | [] => [[]]
  | x :: xs =>
    if x = c then [] :: splitOnChar c xs
    else
      match splitOnChar c xs with
      | [] => [[x]]
      | h :: t => (x :: h) :: t

/-- Re-parses the symbols out of a formatted `market` reply: drop the
header line, then read each remaining line up to its first colon. -/
def parseMarketSymbols (reply : String) : List String :=
  ((splitOnChar '\n' reply.data).drop 1).map
    (fun line => String.mk (line.takeWhile (fun ch => ch != ':')))

end CryptoBot

unseal Rat.add Rat.mul Rat.inv Rat.sub

namespace CryptoBot

theorem strData_append (a b : String) : (a ++ b).data = a.data ++ b.data := rfl

theorem calculate_profit_skip (prices : Quotes) (t : String) (i : Holding)
    (rest : PortfolioData) (h : prices.lookup t = none) :
    calculate_profit prices ((t, i) :: rest) = calculate_profit prices rest := by
  simp [calculate_profit, h]

theorem calculate_profit_keyError (prices : Quotes) (t : String) (i : Holding)
    (rest : PortfolioData) (cur : ℚ) (hq : prices.lookup t = some cur)
    (hb : i.buy_usd = none) :
    calculate_profit prices ((t, i) :: rest) = .error "KeyError: buy_usd" := by
  simp [calculate_profit, hq, hb]

theorem calculate_profit_zeroDiv (prices : Quotes) (t : String) (i : Holding)
    (rest : PortfolioData) (cur : ℚ) (hq : prices.lookup t = some cur)
    (hb : i.buy_usd = some 0) :
    calculate_profit prices ((t, i) :: rest)
      = .error "ZeroDivisionError: division by zero" := by
  simp [calculate_profit, hq, hb]

theorem calculate_profit_cons (prices : Quotes) (t : String) (i : Holding)
    (rest : PortfolioData) (cur b : ℚ) (hq : prices.lookup t = some cur)
    (hb : i.buy_usd = some b) (hnz : b ≠ 0) :
    calculate_profit prices ((t, i) :: rest) =
      (calculate_profit prices rest).map
        (fun lines => profitLine t (roundHalfEven ((cur - b) / b * 100 * 100)) :: lines) := by
  simp [calculate_profit, hq, hb, hnz]

theorem calculate_profit_ok_eq_filterMap (prices : Quotes) :
    ∀ (pf : PortfolioData) (lines : List String),
      calculate_profit prices pf = .ok lines →
      lines = pf.filterMap (entryLine prices) := by
  intro pf
  induction pf with
  | nil =>
    intro lines h
    simp only [calculate_profit] at h
    injection h with h
    simp [h.symm]
  | cons e rest ih =>
    obtain ⟨t, i⟩ := e
    intro lines h
    cases hq : prices.lookup t with
    | none =>
      rw [calculate_profit_skip _ _ _ _ hq] at h
      simpa [List.filterMap_cons, entryLine, hq] using ih lines h
    | some cur =>
      cases hb : i.buy_usd with
      | none =>
        rw [calculate_profit_keyError _ _ _ _ _ hq hb] at h
        simp at h
      | some b =>
        by_cases hz : b = 0
        · subst hz
          rw [calculate_profit_zeroDiv _ _ _ _ _ hq hb] at h
          simp at h
        · rw [calculate_profit_cons _ _ _ _ _ _ hq hb hz] at h
          cases hrest : calculate_profit prices rest with
          | error msg => rw [hrest] at h; simp [Except.map] at h
          | ok ls =>
            rw [hrest] at h
            simp only [Except.map, Except.ok.injEq] at h
            subst h
            simp [List.filterMap_cons, entryLine, hq, hb, hz]
            exact ih ls hrest

theorem entryLine_some (prices : Quotes) (e : String × Holding) (l : String)
    (h : entryLine prices e = some l) :
    (∃ cur, prices.lookup e.1 = some cur) ∧ ∃ p, l = profitLine e.1 p := by
  unfold entryLine at h
  split at h
  · next cur b hq hb =>
    split at h
    · exact absurd h (by simp)
    · injection h with h
      exact ⟨⟨cur, hq⟩, _, h.symm⟩
  · exact absurd h (by simp)

theorem mem_keys_of_lookup {α : Type} (l : List (String × α)) (k : String) (v : α)
    (h : l.lookup k = some v) : k ∈ l.map Prod.fst := by
  induction l with
  | nil => simp at h
  | cons e rest ih =>
    obtain ⟨k1, v1⟩ := e
    by_cases hk : k = k1
    · simp [hk]
    · have h2 : rest.lookup k = some v := by
        simpa [List.lookup, beq_eq_false_iff_ne.mpr hk] using h
      exact List.mem_cons_of_mem _ (ih h2)

end CryptoBot

namespace CryptoBot

theorem get_prices_some_elim (data : List (String × ℚ)) :
    get_prices (some data) =
      match data.lookup "BTC", data.lookup "ETH", data.lookup "SOL",
          data.lookup "ARB", data.lookup "TON" with
      | some b, some e, some s, some a, some t =>
        some [("BTC", round2 b), ("ETH", round2 e), ("SOL", round2 s),
              ("ARB", round2 a), ("TON", round2 t)]
      | _, _, _, _, _ => none := rfl

theorem get_prices_shape (resp : Option (List (String × ℚ))) (q : Quotes)
    (h : get_prices resp = some q) :
    ∃ b e s a t : ℚ,
      q = [("BTC", b), ("ETH", e), ("SOL", s), ("ARB", a), ("TON", t)] := by
  cases resp with
  | none => exact absurd h (by simp [get_prices])
  | some data =>
    rw [get_prices_some_elim] at h
    split at h
    · injection h with h
      exact ⟨_, _, _, _, _, h.symm⟩
    · exact absurd h (by simp)

theorem get_prices_keys (resp : Option (List (String × ℚ))) (q : Quotes)
    (h : get_prices resp = some q) :
    q.map Prod.fst = ["BTC", "ETH", "SOL", "ARB", "TON"] := by
  obtain ⟨b, e, s, a, t, rfl⟩ := get_prices_shape resp q h
  rfl

theorem get_prices_lookup_some (data : List (String × ℚ)) (q : Quotes)
    (h : get_prices (some data) = some q) :
    ∀ s ∈ (["BTC", "ETH", "SOL", "ARB", "TON"] : List String),
      ∃ v, data.lookup s = some v := by
  rw [get_prices_some_elim] at h
  split at h
  · rename_i b e sym a t hb he hsym ha ht
    intro s hs
    simp only [List.mem_cons, List.not_mem_nil, or_false] at hs
    rcases hs with rfl | rfl | rfl | rfl | rfl
    · exact ⟨b, hb⟩
    · exact ⟨e, he⟩
    · exact ⟨sym, hsym⟩
    · exact ⟨a, ha⟩
    · exact ⟨t, ht⟩
  · exact absurd h (by simp)

theorem get_prices_none_of_missing (data : List (String × ℚ)) (s : String)
    (hs : s ∈ (["BTC", "ETH", "SOL", "ARB", "TON"] : List String))
    (h : data.lookup s = none) : get_prices (some data) = none := by
  cases hg : get_prices (some data) with
  | none => rfl
  | some q =>
    obtain ⟨v, hv⟩ := get_prices_lookup_some data q hg s hs
    rw [h] at hv
    cases hv

theorem splitOnChar_cons (c x : Char) (xs : List Char) :
    splitOnChar c (x :: xs) =
      if x = c then [] :: splitOnChar c xs
      else
        match splitOnChar c xs with
        | [] => [[x]]
        | h :: t => (x :: h) :: t := rfl

theorem splitOnChar_ne_nil (c : Char) (l : List Char) : splitOnChar c l ≠ [] := by
  induction l with
  | nil => simp [splitOnChar]
  | cons x xs ih =>
    rw [splitOnChar_cons]
    by_cases hx : x = c
    · simp [hx]
    · simp only [hx, if_false]
      cases hs : splitOnChar c xs with
      | nil => exact absurd hs ih
      | cons h t => simp

theorem splitOnChar_not_mem (c : Char) (l : List Char) (h : c ∉ l) :
    splitOnChar c l = [l] := by
  induction l with
  | nil => rfl
  | cons x xs ih =>
    have hx : ¬(x = c) := fun e => h (e ▸ List.mem_cons_self x xs)
    have hxs : c ∉ xs := fun m => h (List.mem_cons_of_mem _ m)
    rw [splitOnChar_cons, ih hxs]
    simp [hx]

theorem splitOnChar_append (c : Char) (l₁ l₂ : List Char) (h : c ∉ l₁) :
    splitOnChar c (l₁ ++ c :: l₂) = l₁ :: splitOnChar c l₂ := by
  induction l₁ with
  | nil =>
    rw [List.nil_append, splitOnChar_cons]
    simp
  | cons x xs ih =>
    have hx : ¬(x = c) := fun e => h (e ▸ List.mem_cons_self x xs)
    have hxs : c ∉ xs := fun m => h (List.mem_cons_of_mem _ m)
    rw [List.cons_append, splitOnChar_cons, ih hxs]
    simp [hx]

theorem digitChar_isDigit (n : Nat) : (digitChar n).isDigit = true := by
  unfold digitChar
  split <;> rfl

theorem natCharsAux_digits (fuel : Nat) :
    ∀ (n : Nat), ∀ ch ∈ natCharsAux fuel n, ch.isDigit = true := by
  induction fuel with
  | zero => intro n ch hch; simp [natCharsAux] at hch
  | succ fuel ih =>
    intro n ch hch
    simp only [natCharsAux] at hch
    split at hch
    · simp only [List.mem_singleton] at hch
      exact hch ▸ digitChar_isDigit n
    · rcases List.mem_append.mp hch with h1 | h2
      · exact ih _ ch h1
      · simp only [List.mem_singleton] at h2
        exact h2 ▸ digitChar_isDigit (n % 10)

theorem newline_not_mem_natChars (n : Nat) : '\n' ∉ natChars n := by
  intro h
  have := natCharsAux_digits (n + 1) n '\n' h
  simp [Char.isDigit] at this

theorem newline_not_mem_pyFloatChars (q : ℚ) : '\n' ∉ pyFloatChars q := by
  unfold pyFloatChars
  intro h
  simp only [List.mem_append, List.mem_cons] at h
  rcases h with (h1 | h2) | h3 | h4
  · split at h1 <;> exact absurd h1 (by decide)
  · exact newline_not_mem_natChars _ h2
  · exact absurd h3 (by decide)
  · split at h4
    · exact newline_not_mem_natChars _ h4
    · split at h4
      · simp only [List.mem_cons] at h4
        rcases h4 with h5 | h6
        · exact absurd h5 (by decide)
        · exact newline_not_mem_natChars _ h6
      · exact newline_not_mem_natChars _ h4

end CryptoBot

namespace CryptoBot

theorem newline_not_mem_line (lit : String) (q : ℚ)
    (hlit : '\n' ∉ lit.data) : '\n' ∉ lit.data ++ pyFloatChars q := by
  intro h
  rcases List.mem_append.mp h with h1 | h2
  · exact hlit h1
  · exact newline_not_mem_pyFloatChars q h2

theorem marketReply_data (b e s a t : ℚ) :
    (marketReply b e s a t).data =
      "📊 Актуальные курсы:".data ++ '\n' ::
      (("BTC: $".data ++ pyFloatChars b) ++ '\n' ::
      (("ETH: $".data ++ pyFloatChars e) ++ '\n' ::
      (("SOL: $".data ++ pyFloatChars s) ++ '\n' ::
      (("ARB: $".data ++ pyFloatChars a) ++ '\n' ::
      ("TON: $".data ++ pyFloatChars t))))) := by
  simp only [marketReply, pyFloatStr, strData_append, List.append_assoc]
  rfl

theorem splitOn_marketReply (b e s a t : ℚ) :
    splitOnChar '\n' (marketReply b e s a t).data =
      ["📊 Актуальные курсы:".data,
       "BTC: $".data ++ pyFloatChars b,
       "ETH: $".data ++ pyFloatChars e,
       "SOL: $".data ++ pyFloatChars s,
       "ARB: $".data ++ pyFloatChars a,
       "TON: $".data ++ pyFloatChars t] := by
  rw [marketReply_data,
    splitOnChar_append _ _ _ (by decide),
    splitOnChar_append _ _ _ (newline_not_mem_line _ b (by decide)),
    splitOnChar_append _ _ _ (newline_not_mem_line _ e (by decide)),
    splitOnChar_append _ _ _ (newline_not_mem_line _ s (by decide)),
    splitOnChar_append _ _ _ (newline_not_mem_line _ a (by decide)),
    splitOnChar_not_mem _ _ (newline_not_mem_line _ t (by decide))]

theorem parse_marketReply (b e s a t : ℚ) :
    parseMarketSymbols (marketReply b e s a t)
      = ["BTC", "ETH", "SOL", "ARB", "TON"] := by
  unfold parseMarketSymbols
  rw [splitOn_marketReply]
  rfl

end CryptoBot

namespace CryptoBot

theorem market_handler_some (resp : Option (List (String × ℚ))) (q : Quotes)
    (h : get_prices resp = some q) :
    ∃ b e s a t : ℚ, market_handler resp = .ok (marketReply b e s a t) := by
  obtain ⟨b, e, s, a, t, rfl⟩ := get_prices_shape resp q h
  refine ⟨b, e, s, a, t, ?_⟩
  unfold market_handler
  rw [h]
  rfl

theorem market_handler_none (resp : Option (List (String × ℚ)))
    (h : get_prices resp = none) :
    market_handler resp = .ok "❌ Не удалось получить цены с CoinGecko." := by
  unfold market_handler
  rw [h]

theorem classify_unrecognized_iff (s : String) :
    classify s = .Unrecognized ↔
      pyLower s ∉ (["/портфель", "/рынок", "/профит", "/нфт"] : List String) := by
  simp only [classify]
  split_ifs with h1 h2 h3 h4 <;> simp_all

end CryptoBot

namespace CryptoBot

/-- C1 counterexample: with quotes `{BTC: 100}` and a portfolio whose `BTC`
record lacks `buy_usd`, `calculate_profit` does not skip the entry: the
field access raises a `KeyError` that aborts the whole computation, so the
claim that such an entry is skipped with no fault is false as stated. -/
theorem c1_counterexample :
    calculate_profit [("BTC", 100)]
        [("BTC", ⟨some 1, none, none, none, none⟩)]
      = .error "KeyError: buy_usd" := by decide

/-- C1 (amended): an entry whose record lacks `buy_usd` is skipped — no
line, no fault — exactly when its symbol is also absent from the quote
map (as the sentinel categories are in practice); when the symbol does
have a quote, the missing field aborts the whole computation with a
`KeyError` fault, which the `profit` handler converts to its fixed
failure reply. -/
theorem c1_missing_buy_usd :
    (∀ (prices : Quotes) (t : String) (i : Holding) (rest : PortfolioData),
        i.buy_usd = none → prices.lookup t = none →
        calculate_profit prices ((t, i) :: rest) = calculate_profit prices rest)
  ∧ (∀ (prices : Quotes) (t : String) (i : Holding) (rest : PortfolioData) (cur : ℚ),
        i.buy_usd = none → prices.lookup t = some cur →
        calculate_profit prices ((t, i) :: rest) = .error "KeyError: buy_usd") :=
  ⟨fun prices t i rest _ hq => calculate_profit_skip prices t i rest hq,
   fun prices t i rest cur hb hq => calculate_profit_keyError prices t i rest cur hq hb⟩

/-- C1 witness: both branches of the amended claim at concrete inputs. -/
theorem c1_missing_buy_usd_witness :
    calculate_profit [("ETH", 5)] [("BTC", ⟨some 1, none, none, none, none⟩)]
        = calculate_profit [("ETH", 5)] []
  ∧ calculate_profit [("TON", 7)] [("TON", ⟨some 2, none, none, none, none⟩)]
        = .error "KeyError: buy_usd" :=
  ⟨c1_missing_buy_usd.1 [("ETH", 5)] "BTC" ⟨some 1, none, none, none, none⟩ [] rfl
      (by decide),
   c1_missing_buy_usd.2 [("TON", 7)] "TON" ⟨some 2, none, none, none, none⟩ [] 7 rfl
      (by decide)⟩

/-- C2: the code does not skip an entry with `buy_usd = 0` whose symbol is
quoted — the division raises `ZeroDivisionError`, aborting the whole
computation (including the healthy `ETH` entry), where the spec mandates
a defined skip. -/
theorem c2_zero_purchase_fault :
    calculate_profit [("BTC", 100), ("ETH", 200)]
        [("BTC", ⟨some 1, some 0, none, none, none⟩),
         ("ETH", ⟨some 1, some 100, none, none, none⟩)]
      = .error "ZeroDivisionError: division by zero" := by decide

/-- C3: when the portfolio load fails, `profit` and `portfolio` each reply
with their fixed failure line, and when the quote fetch fails `profit`
replies with its fixed quote-failure line; the handlers are total
functions into `String`, so no fault escapes them, and the failure
replies are constants containing no portfolio or quote data. -/
theorem c3_fixed_failure_replies :
    (∀ (msg : String) (resp : Option (List (String × ℚ))),
        profit_handler (.error msg) resp = "⚠️ Ошибка при расчёте доходности.")
  ∧ (∀ data : PortfolioData,
        profit_handler (.ok data) none = "❌ Не удалось получить цены.")
  ∧ (∀ msg : String,
        portfolio_handler (.error msg) = "Ошибка при чтении портфеля.") :=
  ⟨fun _ _ => rfl, fun _ => rfl, fun _ => rfl⟩

/-- C4: `classify` is a total function on strings that lowercases the
whole text and compares for exact equality with the command tokens: it
returns `Unrecognized` exactly when the lowered text is none of the four
tokens; in particular a token with trailing or leading whitespace is
`Unrecognized`, while a case variant of a token is recognized. -/
theorem c4_classify_exact_tokens :
    (∀ s : String,
        classify s = .Unrecognized ↔
          pyLower s ∉ (["/портфель", "/рынок", "/профит", "/нфт"] : List String))
  ∧ classify "/портфель " = .Unrecognized
  ∧ classify " /рынок" = .Unrecognized
  ∧ classify "/ПОРТФЕЛЬ" = .ShowPortfolio
  ∧ classify "/профит" = .ShowProfit :=
  ⟨classify_unrecognized_iff, by decide, by decide, by decide, by decide⟩

/-- C5: an entry with a quote and a nonzero purchase price contributes the
line `profitLine t percent` where `percent` is `round(((current - buy) /
buy) * 100, 2)` carried in hundredths; Scenario A: portfolio
`{BTC: {amount: 1, buy_usd: 10000}}` with quotes `{BTC: 12000}` yields
exactly the line `BTC: +20.00% 📈`. -/
theorem c5_percent_formula :
    (∀ (prices : Quotes) (t : String) (i : Holding) (rest : PortfolioData) (cur b : ℚ),
        prices.lookup t = some cur → i.buy_usd = some b → b ≠ 0 →
        calculate_profit prices ((t, i) :: rest) =
          (calculate_profit prices rest).map
            (fun lines =>
              profitLine t (roundHalfEven ((cur - b) / b * 100 * 100)) :: lines))
  ∧ calculate_profit [("BTC", 12000)]
        [("BTC", ⟨some 1, some 10000, none, none, none⟩)]
      = .ok ["BTC: +20.00% 📈"] :=
  ⟨calculate_profit_cons, by decide⟩

/-- C5 witness: the general formula applied at a concrete entry. -/
theorem c5_percent_formula_witness :
    calculate_profit [("SOL", 150)]
        [("SOL", ⟨some 2, some 100, none, none, none⟩)] =
      (calculate_profit [("SOL", 150)] []).map
        (fun lines =>
          profitLine "SOL" (roundHalfEven ((150 - 100) / 100 * 100 * 100)) :: lines) :=
  c5_percent_formula.1 [("SOL", 150)] "SOL" ⟨some 2, some 100, none, none, none⟩ []
    150 100 (by decide) rfl (by decide)

/-- C6: an entry whose symbol has no quote is skipped silently, and a
successful run returns exactly the per-entry lines of the kept entries in
the portfolio's own order (`List.filterMap` preserves order). -/
theorem c6_skip_and_order :
    (∀ (prices : Quotes) (t : String) (i : Holding) (rest : PortfolioData),
        prices.lookup t = none →
        calculate_profit prices ((t, i) :: rest) = calculate_profit prices rest)
  ∧ (∀ (prices : Quotes) (pf : PortfolioData) (lines : List String),
        calculate_profit prices pf = .ok lines →
        lines = pf.filterMap (entryLine prices)) :=
  ⟨calculate_profit_skip, calculate_profit_ok_eq_filterMap⟩

/-- C6 witness: skipping and the order-preserving characterisation at a
concrete two-entry portfolio. -/
theorem c6_skip_and_order_witness :
    calculate_profit [("ETH", 300)]
        [("DOGE", ⟨some 4, some 2, none, none, none⟩),
         ("ETH", ⟨some 1, some 200, none, none, none⟩)]
      = calculate_profit [("ETH", 300)]
          [("ETH", ⟨some 1, some 200, none, none, none⟩)]
  ∧ (["ETH: +50.00% 📈"] : List String) =
      ([("DOGE", ⟨some 4, some 2, none, none, none⟩),
        ("ETH", ⟨some 1, some 200, none, none, none⟩)] : PortfolioData).filterMap
        (entryLine [("ETH", 300)]) :=
  ⟨c6_skip_and_order.1 [("ETH", 300)] "DOGE" ⟨some 4, some 2, none, none, none⟩
      [("ETH", ⟨some 1, some 200, none, none, none⟩)] (by decide),
   c6_skip_and_order.2 [("ETH", 300)]
      [("DOGE", ⟨some 4, some 2, none, none, none⟩),
       ("ETH", ⟨some 1, some 200, none, none, none⟩)]
      ["ETH: +50.00% 📈"] (by decide)⟩

/-- C7: every profit line carries the marker `trendArrow percent`, which
is the up marker exactly when the rounded percent is strictly positive;
an exactly-zero percent gets the down marker. -/
theorem c7_trend_marker :
    (∀ (t : String) (p : ℤ),
        profitLine t p = t ++ ": " ++ fmtSigned2 p ++ "% " ++ trendArrow p)
  ∧ (∀ p : ℤ, trendArrow p = "📈" ↔ 0 < p)
  ∧ trendArrow 0 = "📉" :=
  ⟨fun _ _ => rfl,
   fun p => by
     unfold trendArrow
     by_cases h : 0 < p
     · rw [if_pos h]
       exact ⟨fun _ => h, fun _ => rfl⟩
     · rw [if_neg h]
       exact ⟨fun hh => absurd hh (by decide), fun hh => absurd hh h⟩,
   rfl⟩

/-- C8: a successful `get_prices` result has exactly the five tracked
symbols as keys, in order; and whenever the decoded provider data lacks
one of the five symbols, the result is `none` — never a partial map. -/
theorem c8_get_prices_all_or_nothing :
    (∀ (resp : Option (List (String × ℚ))) (q : Quotes),
        get_prices resp = some q →
        q.map Prod.fst = ["BTC", "ETH", "SOL", "ARB", "TON"])
  ∧ (∀ (data : List (String × ℚ)) (s : String),
        s ∈ (["BTC", "ETH", "SOL", "ARB", "TON"] : List String) →
        data.lookup s = none →
        get_prices (some data) = none) :=
  ⟨get_prices_keys, get_prices_none_of_missing⟩

/-- C8 witness: a full provider response gives the five keys in order; a
response missing `TON` gives `none`. -/
theorem c8_get_prices_all_or_nothing_witness :
    (([("BTC", 1), ("ETH", 2), ("SOL", 3), ("ARB", 4), ("TON", 5)] : Quotes).map Prod.fst
        = ["BTC", "ETH", "SOL", "ARB", "TON"])
  ∧ get_prices (some [("BTC", 10), ("ETH", 20), ("SOL", 30), ("ARB", 40)]) = none :=
  ⟨c8_get_prices_all_or_nothing.1
      (some [("BTC", 1), ("ETH", 2), ("SOL", 3), ("ARB", 4), ("TON", 5)])
      [("BTC", 1), ("ETH", 2), ("SOL", 3), ("ARB", 4), ("TON", 5)] (by decide),
   c8_get_prices_all_or_nothing.2 [("BTC", 10), ("ETH", 20), ("SOL", 30), ("ARB", 40)]
      "TON" (by decide) (by decide)⟩

/-- C9: with a successful quote map the `market` handler replies with the
formatted five-line listing, and re-parsing the symbols out of that reply
recovers exactly BTC, ETH, SOL, ARB, TON in order; when the quote fetch
failed it replies with the single fixed failure line. -/
theorem c9_market_roundtrip :
    (∀ (resp : Option (List (String × ℚ))) (q : Quotes),
        get_prices resp = some q →
        ∃ r : String, market_handler resp = .ok r ∧
          parseMarketSymbols r = ["BTC", "ETH", "SOL", "ARB", "TON"])
  ∧ (∀ resp : Option (List (String × ℚ)),
        get_prices resp = none →
        market_handler resp = .ok "❌ Не удалось получить цены с CoinGecko.") := by
  constructor
  · intro resp q h
    obtain ⟨b, e, s, a, t, hm⟩ := market_handler_some resp q h
    exact ⟨marketReply b e s a t, hm, parse_marketReply b e s a t⟩
  · exact market_handler_none

/-- C9 witness: the round trip at one concrete quote map, and the fixed
line for a failed fetch. -/
theorem c9_market_roundtrip_witness :
    (∃ r : String,
        market_handler
            (some [("BTC", 97000), ("ETH", 3500), ("SOL", 180), ("ARB", 1), ("TON", 6)])
          = .ok r ∧
        parseMarketSymbols r = ["BTC", "ETH", "SOL", "ARB", "TON"])
  ∧ market_handler none = .ok "❌ Не удалось получить цены с CoinGecko." :=
  ⟨c9_market_roundtrip.1
      (some [("BTC", 97000), ("ETH", 3500), ("SOL", 180), ("ARB", 1), ("TON", 6)])
      [("BTC", 97000), ("ETH", 3500), ("SOL", 180), ("ARB", 1), ("TON", 6)] (by decide),
   c9_market_roundtrip.2 none (by decide)⟩

/-- C10: any quote map produced by a successful `get_prices` has exactly
the five tracked keys, so the sentinel entries `USDT` and `NFT` are
skipped before their records are touched (no line, no fault), and every
line of a successful profit computation carries a symbol from the fixed
five-element set. -/
theorem c10_sentinels_and_symbol_set :
    ∀ (resp : Option (List (String × ℚ))) (q : Quotes),
      get_prices resp = some q →
      (∀ (i : Holding) (rest : PortfolioData),
          calculate_profit q (("USDT", i) :: rest) = calculate_profit q rest)
      ∧ (∀ (i : Holding) (rest : PortfolioData),
          calculate_profit q (("NFT", i) :: rest) = calculate_profit q rest)
      ∧ (∀ (pf : PortfolioData) (lines : List String),
          calculate_profit q pf = .ok lines →
          ∀ l ∈ lines, ∃ t p,
            t ∈ (["BTC", "ETH", "SOL", "ARB", "TON"] : List String)
            ∧ l = profitLine t p) := by
  intro resp q h
  obtain ⟨b, e, s, a, t, rfl⟩ := get_prices_shape resp q h
  refine ⟨fun i rest => calculate_profit_skip _ _ _ _ (by rfl),
          fun i rest => calculate_profit_skip _ _ _ _ (by rfl), ?_⟩
  intro pf lines hok l hl
  rw [calculate_profit_ok_eq_filterMap _ pf lines hok] at hl
  obtain ⟨entry, hmem, hentry⟩ := List.mem_filterMap.mp hl
  obtain ⟨⟨cur, hcur⟩, p, hp⟩ := entryLine_some _ entry l hentry
  have hkey := mem_keys_of_lookup _ _ _ hcur
  refine ⟨entry.1, p, ?_, hp⟩
  simpa using hkey

/-- C10 witness: a `USDT` sentinel entry is dropped against a concrete
successful quote map. -/
theorem c10_sentinels_and_symbol_set_witness :
    calculate_profit
        [("BTC", 50), ("ETH", 60), ("SOL", 70), ("ARB", 80), ("TON", 90)]
        [("USDT", ⟨some 500, none, some 5, none, none⟩)]
      = calculate_profit
          [("BTC", 50), ("ETH", 60), ("SOL", 70), ("ARB", 80), ("TON", 90)] [] :=
  (c10_sentinels_and_symbol_set
      (some [("BTC", 50), ("ETH", 60), ("SOL", 70), ("ARB", 80), ("TON", 90)])
      [("BTC", 50), ("ETH", 60), ("SOL", 70), ("ARB", 80), ("TON", 90)]
      (by decide)).1 ⟨some 500, none, some 5, none, none⟩ []

end CryptoBot
